import Mathlib

/-!
Verification of the deterministic execution and replay pipeline of the
ai-dev-team repository.  Pure functions from the TypeScript sources are
embedded as Lean functions; the host primitives (the JSON parser, the JSON
serializer, the clock and the hash function) are passed as explicit
parameters, and browser storage is modelled as an explicit partial map.
Components of the pipeline whose implementation is not part of the sources
(the canonicalizer, the executor state machine and the replay runner) are
modelled from the specification and marked as such in their doc comments.
-/

namespace AiDevTeam

/-! Embedding of the NDJSON history reader `parseNdjson` from the
HistoryPanel component. -/

/-- Splits a character stream at every newline, where a carriage return
directly before a newline is consumed as part of the separator.  This is the
split on the regular expression matching an optional carriage return
followed by a newline used by the source. -/
def splitLinesAux : List Char → List Char → List (List Char)
  | [], acc => [acc.reverse]
  | '\r' :: '\n' :: rest, acc => acc.reverse :: splitLinesAux rest []
  | '\n' :: rest, acc => acc.reverse :: splitLinesAux rest []
  | c :: rest, acc => splitLinesAux rest (c :: acc)

/-- Lines of a history file text, in order. -/
def splitLines (text : List Char) : List (List Char) :=
  splitLinesAux text []

/-- Whitespace characters removed by the JavaScript trim operation, restricted
to the space character and the control characters from tab to carriage
return. -/
def isWsChar (c : Char) : Bool :=
  c = ' ' || (9 ≤ c.toNat && c.toNat ≤ 13)

/-- Removes leading and trailing whitespace from a line, as the source's trim
call does. -/
def jsTrim (cs : List Char) : List Char :=
  ((cs.dropWhile isWsChar).reverse.dropWhile isWsChar).reverse

/-- Result record of the NDJSON reader: parsed items, the number of skipped
lines and the number of processed lines. -/
structure NdjsonResult (α : Type) where
  items : List α
  skippedLines : Nat
  totalLines : Nat

/-- Core loop of the NDJSON reader over the list of raw lines.  A line that
trims to nothing is passed over; a non-empty line is parsed, a parse failure
increments the skipped counter, and every non-empty line increments the
total counter.  The host JSON parser is the explicit parameter. -/
def parseNdjsonLines (parse : List Char → Option α) : List (List Char) → NdjsonResult α
  | [] => ⟨[], 0, 0⟩
  | raw :: rest =>
    let line := jsTrim raw
    if line.isEmpty then parseNdjsonLines parse rest
    else
      let r := parseNdjsonLines parse rest
      match parse line with
      | some v => ⟨v :: r.items, r.skippedLines, r.totalLines + 1⟩
      | none => ⟨r.items, r.skippedLines + 1, r.totalLines + 1⟩

/-- The NDJSON reader from the HistoryPanel component: split the text into
lines, trim each, skip empty lines, parse the rest and count failures. -/
def parseNdjson (parse : List Char → Option α) (text : List Char) : NdjsonResult α :=
  parseNdjsonLines parse (splitLines text)

/-- A raw line that trims to nothing. -/
def isEmptyLine (raw : List Char) : Bool :=
  (jsTrim raw).isEmpty

/-- A raw line that trims to something non-empty which the parser accepts. -/
def isValidLine (parse : List Char → Option α) (raw : List Char) : Bool :=
  !(jsTrim raw).isEmpty && (parse (jsTrim raw)).isSome

/-- A raw line that trims to something non-empty which the parser rejects. -/
def isMalformedLine (parse : List Char → Option α) (raw : List Char) : Bool :=
  !(jsTrim raw).isEmpty && (parse (jsTrim raw)).isNone

theorem parseNdjsonLines_spec (parse : List Char → Option α) (ls : List (List Char)) :
    (parseNdjsonLines parse ls).items.length = (ls.filter (isValidLine parse)).length
    ∧ (parseNdjsonLines parse ls).skippedLines = (ls.filter (isMalformedLine parse)).length
    ∧ (parseNdjsonLines parse ls).totalLines = (ls.filter (fun r => !isEmptyLine r)).length := by
  induction ls with
  | nil => simp [parseNdjsonLines]
  | cons raw rest ih =>
    by_cases he : (jsTrim raw).isEmpty
    · have hv : isValidLine parse raw = false := by
        simp [isValidLine, he]
      have hm : isMalformedLine parse raw = false := by
        simp [isMalformedLine, he]
      have hne : isEmptyLine raw = true := by
        simp [isEmptyLine, he]
      simp [parseNdjsonLines, he, hv, hm, hne, ih]
    · cases hp : parse (jsTrim raw) with
      | some v =>
        have hv : isValidLine parse raw = true := by
          simp [isValidLine, he, hp]
        have hm : isMalformedLine parse raw = false := by
          simp [isMalformedLine, he, hp]
        have hne : isEmptyLine raw = false := by
          simp [isEmptyLine, he]
        simp [parseNdjsonLines, he, hp, hv, hm, hne, ih]
      | none =>
        have hv : isValidLine parse raw = false := by
          simp [isValidLine, he, hp]
        have hm : isMalformedLine parse raw = true := by
          simp [isMalformedLine, he, hp]
        have hne : isEmptyLine raw = false := by
          simp [isEmptyLine, he]
        simp [parseNdjsonLines, he, hp, hv, hm, hne, ih]

theorem parseNdjsonLines_drop_empty (parse : List Char → Option α) (ls : List (List Char)) :
    parseNdjsonLines parse (ls.filter (fun r => !isEmptyLine r)) = parseNdjsonLines parse ls := by
  induction ls with
  | nil => rfl
  | cons raw rest ih =>
    by_cases he : (jsTrim raw).isEmpty
    · have hne : isEmptyLine raw = true := by
        simp [isEmptyLine, he]
      simp [parseNdjsonLines, he, hne, ih]
    · have hne : isEmptyLine raw = false := by
        simp [isEmptyLine, he]
      simp only [List.filter_cons, hne, Bool.not_false]
      simp [parseNdjsonLines, he, ih]

/-- C3: for every history text, reading it with parseNdjson yields exactly as
many parsed records as there are valid lines (non-empty after trimming and
accepted by the JSON parser) and reports a skip count equal to the number of
malformed lines (non-empty after trimming and rejected by the parser); the
reader is a total function, so it never raises on any input. -/
theorem C3_parseNdjson_counts (α : Type) (parse : List Char → Option α) (text : List Char) :
    (parseNdjson parse text).items.length
        = ((splitLines text).filter (isValidLine parse)).length
    ∧ (parseNdjson parse text).skippedLines
        = ((splitLines text).filter (isMalformedLine parse)).length := by
  have h := parseNdjsonLines_spec parse (splitLines text)
  exact ⟨h.1, h.2.1⟩

/-- Identity line parser used to exhibit a concrete counterexample; it
accepts every non-empty trimmed line. -/
def acceptAllParse (cs : List Char) : Option (List Char) :=
  some cs

/-- C4 counterexample: the claim says every skipped line, including an empty
line, is counted in the reported skip count.  On the text consisting of the
line a, an empty line and the line b, the reader skips the empty line but
reports a skip count of zero, not one. -/
theorem C4_counterexample :
    ¬ ((parseNdjson acceptAllParse ['a', '\n', '\n', 'b']).skippedLines
        = ((splitLines ['a', '\n', '\n', 'b']).filter
            (fun r => isEmptyLine r || isMalformedLine acceptAllParse r)).length) := by
  decide

/-- C4 amended: the NDJSON consumer skips lines that are empty after trimming
without counting them, counts in the reported skip count exactly the
non-empty lines that fail to parse, and never aborts the read: every
non-empty line is accounted for exactly once, as a parsed item or as a
skipped line, and removing the empty lines from the input leaves the result
unchanged. -/
theorem C4_amended (α : Type) (parse : List Char → Option α) (text : List Char) :
    (parseNdjson parse text).skippedLines
        = ((splitLines text).filter (fun r => isMalformedLine parse r)).length
    ∧ (parseNdjson parse text).items.length + (parseNdjson parse text).skippedLines
        = (parseNdjson parse text).totalLines
    ∧ parseNdjsonLines parse ((splitLines text).filter (fun r => !isEmptyLine r))
        = parseNdjson parse text := by
  have h := parseNdjsonLines_spec parse (splitLines text)
  refine ⟨h.2.1, ?_, parseNdjsonLines_drop_empty parse (splitLines text)⟩
  have hsplit : ∀ ls : List (List Char),
      (ls.filter (isValidLine parse)).length + (ls.filter (isMalformedLine parse)).length
        = (ls.filter (fun r => !isEmptyLine r)).length := by
    intro ls
    induction ls with
    | nil => simp
    | cons raw rest ih =>
      by_cases he : (jsTrim raw).isEmpty
      · have hv : isValidLine parse raw = false := by simp [isValidLine, he]
        have hm : isMalformedLine parse raw = false := by simp [isMalformedLine, he]
        have hne : isEmptyLine raw = true := by simp [isEmptyLine, he]
        simp [hv, hm, hne, ih]
      · have hne : isEmptyLine raw = false := by simp [isEmptyLine, he]
        cases hp : parse (jsTrim raw) with
        | some v =>
          have hv : isValidLine parse raw = true := by simp [isValidLine, he, hp]
          have hm : isMalformedLine parse raw = false := by simp [isMalformedLine, he, hp]
          simp only [List.filter_cons, hv, hm, hne, Bool.not_false, if_true, if_false]
          simp [List.length_cons]
          omega
        | none =>
          have hv : isValidLine parse raw = false := by simp [isValidLine, he, hp]
          have hm : isMalformedLine parse raw = true := by simp [isMalformedLine, he, hp]
          simp only [List.filter_cons, hv, hm, hne, Bool.not_false, if_true, if_false]
          simp [List.length_cons]
          omega
  rw [parseNdjson, h.1, h.2.1, h.2.2]
  exact hsplit (splitLines text)

/-! Embedding of persistExecutionRequest from the TaskPanel component.  The
browser localStorage is modelled as a partial map from keys to strings, and
the two host JSON serializations (the pretty one used for the last slot and
the compact one used for the log line) are explicit parameters. -/

/-- Model of the browser localStorage: a partial map from keys to stored
strings. -/
def LocalStorage : Type := String → Option String

/-- Stores a value under a key, overwriting any previous value. -/
def setItem (s : LocalStorage) (k v : String) : LocalStorage :=
  fun k2 => if k2 = k then some v else s k2

/-- Reads the value stored under a key, or none when absent. -/
def getItem (s : LocalStorage) (k : String) : Option String :=
  s k

/-- The persistExecutionRequest function of the TaskPanel component: write
the request to the last-slot key with the pretty serialization, then append
its compact serialization as one new line to the log key, starting the log
when it is empty or missing. -/
def persistExecutionRequest (stringifyPretty stringify : ρ → String) (req : ρ)
    (s : LocalStorage) : LocalStorage :=
  let s1 := setItem s "last_execution_request" (stringifyPretty req)
  let line := stringify req
  let prev := (getItem s1 "execution_requests_log").getD ""
  setItem s1 "execution_requests_log" (if prev = "" then line else prev ++ "\n" ++ line)

/-- Sequence of persist calls, in order. -/
def persistAll (stringifyPretty stringify : ρ → String) (reqs : List ρ)
    (s : LocalStorage) : LocalStorage :=
  reqs.foldl (fun st r => persistExecutionRequest stringifyPretty stringify r st) s

theorem getItem_persist_log (stringifyPretty stringify : ρ → String) (req : ρ)
    (s : LocalStorage) :
    getItem (persistExecutionRequest stringifyPretty stringify req s) "execution_requests_log"
      = some (let prev := (getItem s "execution_requests_log").getD "";
          if prev = "" then stringify req else prev ++ "\n" ++ stringify req) := by
  have hk : getItem (setItem s "last_execution_request" (stringifyPretty req))
      "execution_requests_log" = getItem s "execution_requests_log" := by
    simp [getItem, setItem]
  simp only [persistExecutionRequest, getItem, setItem, hk]
  simp [getItem] at hk
  simp [hk]

/-- C5: appending a request through persistExecutionRequest leaves the
execution-request history log equal to the prior content followed by exactly
one newline-delimited serialized record of the request; the prior content
stays unchanged as an exact prefix of the new content and no prior line is
rewritten or dropped. -/
theorem C5_append_only_log (ρ : Type) (stringifyPretty stringify : ρ → String) (req : ρ)
    (s : LocalStorage) :
    getItem (persistExecutionRequest stringifyPretty stringify req s) "execution_requests_log"
      = some (let prev := (getItem s "execution_requests_log").getD "";
          if prev = "" then stringify req else prev ++ "\n" ++ stringify req)
    ∧ ∃ t : String,
        (getItem (persistExecutionRequest stringifyPretty stringify req s)
            "execution_requests_log").getD ""
          = ((getItem s "execution_requests_log").getD "") ++ t := by
  refine ⟨getItem_persist_log stringifyPretty stringify req s, ?_⟩
  rw [getItem_persist_log stringifyPretty stringify req s]
  by_cases hp : (getItem s "execution_requests_log").getD "" = ""
  · exact ⟨stringify req, by simp [hp]⟩
  · exact ⟨"\n" ++ stringify req, by simp [hp, String.append_assoc]⟩

theorem getItem_persist_last (stringifyPretty stringify : ρ → String) (req : ρ)
    (s : LocalStorage) :
    getItem (persistExecutionRequest stringifyPretty stringify req s) "last_execution_request"
      = some (stringifyPretty req) := by
  simp [persistExecutionRequest, getItem, setItem]

/-- C6: every persist call fully overwrites the last-request slot, and after
a sequence of persist calls the slot holds exactly the serialization of the
most recently written request. -/
theorem C6_last_slot (ρ : Type) (stringifyPretty stringify : ρ → String) (req : ρ)
    (reqs : List ρ) (s : LocalStorage) :
    getItem (persistExecutionRequest stringifyPretty stringify req s) "last_execution_request"
      = some (stringifyPretty req)
    ∧ ∀ r : ρ, reqs.getLast? = some r →
        getItem (persistAll stringifyPretty stringify reqs s) "last_execution_request"
          = some (stringifyPretty r) := by
  refine ⟨getItem_persist_last stringifyPretty stringify req s, ?_⟩
  induction reqs generalizing s with
  | nil => intro r hr; simp at hr
  | cons a rest ih =>
    intro r hr
    cases rest with
    | nil =>
      simp at hr
      subst hr
      simpa [persistAll] using getItem_persist_last stringifyPretty stringify a s
    | cons b tail =>
      rw [List.getLast?_cons_cons] at hr
      have := ih (persistExecutionRequest stringifyPretty stringify a s) r hr
      simpa [persistAll] using this

/-- C6 witness: persisting the requests one and two in order leaves the last
slot holding the serialization of two. -/
theorem C6_witness :
    getItem (persistExecutionRequest (fun n : Nat => Nat.repr n) (fun n => Nat.repr n) 7
        (fun _ => none)) "last_execution_request" = some "7"
    ∧ [1, 2].getLast? = some 2
    ∧ getItem (persistAll (fun n : Nat => Nat.repr n) (fun n => Nat.repr n) [1, 2]
        (fun _ => none)) "last_execution_request" = some "2" :=
  ⟨(C6_last_slot Nat (fun n => Nat.repr n) (fun n => Nat.repr n) 7 [1, 2] (fun _ => none)).1,
   rfl,
   (C6_last_slot Nat (fun n => Nat.repr n) (fun n => Nat.repr n) 7 [1, 2] (fun _ => none)).2
     2 rfl⟩

/-! Embedding of postExecutionRequest from the execution request client.  The
outcome of the single fetch call is modelled explicitly: either a response
(with its ok flag, status, status text and the body text, where none stands
for a body read that itself rejects and is replaced by the empty string), or
a thrown error carrying an optional name and an optional message.  The
timeout timer resolves into a thrown error named AbortError. -/

/-- Outcome of the fetch call performed by the client. -/
inductive FetchOutcome where
  | response (ok : Bool) (status : Nat) (statusText : String) (bodyText : Option String)
  | thrown (name : Option String) (message : Option String)

/-- Typed return value of the client: success, or a rejection with an error
string. -/
inductive PostResult where
  | ok
  | err (error : String)
deriving DecidableEq

/-- Trim on strings, reusing the character-level trim. -/
def jsTrimString (s : String) : String :=
  (jsTrim s.toList).asString

/-- The postExecutionRequest function: a non-ok response is turned into a
typed rejection carrying the trimmed HTTP status line, a thrown AbortError
(the timeout) is turned into the rejection Request timed out, any other
thrown error is turned into a rejection carrying its message or the fallback
Network error, and an ok response yields the typed success value. -/
def postExecutionRequest (o : FetchOutcome) : PostResult :=
  match o with
  | .response ok status statusText bodyText =>
    if ok then .ok
    else .err (jsTrimString ("HTTP " ++ Nat.repr status ++ " " ++ statusText ++ " "
      ++ bodyText.getD ""))
  | .thrown name message =>
    if name = some "AbortError" then .err "Request timed out"
    else .err (message.getD "Network error")

/-- C8: for every outcome of posting an execution request the client returns
a typed value and never raises to its caller: an ok response yields success,
a non-ok response yields a rejection with the trimmed HTTP status line, a
timeout abort yields the rejection Request timed out, and any other failure
yields a rejection with its message or the fallback Network error. -/
theorem C8_typed_rejections (status : Nat) (statusText : String) (bodyText : Option String)
    (name message : Option String) :
    (∀ o : FetchOutcome, postExecutionRequest o = .ok
        ∨ ∃ s : String, postExecutionRequest o = .err s)
    ∧ postExecutionRequest (.response true status statusText bodyText) = .ok
    ∧ postExecutionRequest (.response false status statusText bodyText)
        = .err (jsTrimString ("HTTP " ++ Nat.repr status ++ " " ++ statusText ++ " "
            ++ bodyText.getD ""))
    ∧ postExecutionRequest (.thrown (some "AbortError") message) = .err "Request timed out"
    ∧ (name ≠ some "AbortError" →
        postExecutionRequest (.thrown name message) = .err (message.getD "Network error")) := by
  refine ⟨?_, rfl, rfl, rfl, ?_⟩
  · intro o
    cases o with
    | response ok status statusText bodyText =>
      cases ok with
      | true => exact Or.inl rfl
      | false => exact Or.inr ⟨_, rfl⟩
    | thrown name message =>
      by_cases h : name = some "AbortError"
      · exact Or.inr ⟨"Request timed out", by simp [postExecutionRequest, h]⟩
      · exact Or.inr ⟨message.getD "Network error", by simp [postExecutionRequest, h]⟩
  · intro h
    simp [postExecutionRequest, h]

/-- C8 witness: a thrown error named TypeError with no message is turned
into the fallback rejection Network error. -/
theorem C8_witness :
    (some "TypeError" ≠ some "AbortError")
    ∧ postExecutionRequest (.thrown (some "TypeError") none) = .err "Network error" :=
  ⟨by decide,
   (C8_typed_rejections 0 "" none (some "TypeError") none).2.2.2.2 (by decide)⟩

/-! Embedding of buildExecutionRequest and the ExecutionRequest record from
the executionRequest module.  The clock read performed by the source (the
current time rendered as an ISO string) is the explicit parameter now, and
the opaque task snapshot is a type parameter. -/

/-- Payload of an execution request: the agent sequence and the opaque task
snapshot. -/
structure RequestPayload (σ : Type) where
  _agent_sequence : List String
  task_snapshot : σ

/-- The ExecutionRequest record of the executionRequest module. -/
structure ExecutionRequest (σ : Type) where
  kind : String
  task_id : String
  milestone_id : Option String
  title : Option String
  created_at : Option String
  payload : RequestPayload σ

/-- Arguments accepted by buildExecutionRequest.  Optional string fields are
options; the source treats the empty string like an absent value through the
JavaScript or-else operator. -/
structure BuildArgs (σ : Type) where
  milestoneIndex : Nat
  taskIndex : Nat
  milestoneTitle : String
  taskId : Option String
  taskTitle : Option String
  taskSnapshot : σ
  agentSequence : Option (List String)

/-- The JavaScript or-else on an optional string: an absent or empty string
falls back to the default. -/
def jsOrString (v : Option String) (d : String) : String :=
  match v with
  | none => d
  | some s => if s = "" then d else s

/-- The buildExecutionRequest function: assembles the execution request with
the constant kind, the task id or its positional fallback, a null milestone
id, the title or its fallback, the current time, and the payload carrying
the agent sequence (or the empty sequence) and the caller's task snapshot. -/
def buildExecutionRequest (args : BuildArgs σ) (now : String) : ExecutionRequest σ :=
  { kind := "execution_request"
    task_id := jsOrString args.taskId
      ("TASK-" ++ Nat.repr args.milestoneIndex ++ "-" ++ Nat.repr args.taskIndex)
    milestone_id := none
    title := some (jsOrString args.taskTitle "Task execution")
    created_at := some now
    payload := { _agent_sequence := args.agentSequence.getD []
                 task_snapshot := args.taskSnapshot } }

/-- C9: the execution request built by buildExecutionRequest carries the
caller-supplied task snapshot unchanged: the snapshot field of the payload
is exactly the snapshot argument, for every snapshot type, so no field of
the snapshot is added, removed or altered; the downstream consumers of the
request in the sources only serialize it, and in this pure embedding no
function can mutate it. -/
theorem C9_snapshot_opaque (σ : Type) (args : BuildArgs σ) (now : String) :
    (buildExecutionRequest args now).payload.task_snapshot = args.taskSnapshot :=
  rfl

/-- C10: the built request has the constant kind execution_request, a null
milestone id, and an agent sequence equal to the given one or the empty
sequence when absent; when the task id argument is absent or empty the task
id is the positional fallback, and when the task title argument is absent or
empty the title is the fallback Task execution. -/
theorem C10_build_defaults (σ : Type) (args : BuildArgs σ) (now : String) :
    (buildExecutionRequest args now).kind = "execution_request"
    ∧ (buildExecutionRequest args now).milestone_id = none
    ∧ (buildExecutionRequest args now).payload._agent_sequence = args.agentSequence.getD []
    ∧ ((args.taskId = none ∨ args.taskId = some "") →
        (buildExecutionRequest args now).task_id
          = "TASK-" ++ Nat.repr args.milestoneIndex ++ "-" ++ Nat.repr args.taskIndex)
    ∧ ((args.taskTitle = none ∨ args.taskTitle = some "") →
        (buildExecutionRequest args now).title = some "Task execution") := by
  refine ⟨rfl, rfl, rfl, ?_, ?_⟩
  · rintro (h | h) <;> simp [buildExecutionRequest, jsOrString, h]
  · rintro (h | h) <;> simp [buildExecutionRequest, jsOrString, h]

/-- C10 witness: with an absent task id, an empty task title, snapshot zero
and indices two and three, the built request has the fallback task id and
title, the constant kind, a null milestone id and an empty agent sequence. -/
theorem C10_witness :
    ((⟨2, 3, "M", none, some "", 0, none⟩ : BuildArgs Nat).taskId = none
      ∨ (⟨2, 3, "M", none, some "", 0, none⟩ : BuildArgs Nat).taskId = some "")
    ∧ ((⟨2, 3, "M", none, some "", 0, none⟩ : BuildArgs Nat).taskTitle = none
      ∨ (⟨2, 3, "M", none, some "", 0, none⟩ : BuildArgs Nat).taskTitle = some "")
    ∧ (buildExecutionRequest (⟨2, 3, "M", none, some "", 0, none⟩ : BuildArgs Nat)
        "2025-01-01").kind = "execution_request"
    ∧ (buildExecutionRequest (⟨2, 3, "M", none, some "", 0, none⟩ : BuildArgs Nat)
        "2025-01-01").task_id = "TASK-2-3"
    ∧ (buildExecutionRequest (⟨2, 3, "M", none, some "", 0, none⟩ : BuildArgs Nat)
        "2025-01-01").title = some "Task execution" := by
  have h := C10_build_defaults Nat (⟨2, 3, "M", none, some "", 0, none⟩ : BuildArgs Nat)
    "2025-01-01"
  exact ⟨Or.inl rfl, Or.inr rfl, h.1,
    by rw [h.2.2.2.1 (Or.inl rfl)]; decide,
    h.2.2.2.2 (Or.inr rfl)⟩

/-! Canonicalizer.  Modelled from the spec: the Canonicalizer and Hasher of
the pipeline live in the Python scripts, which are not part of the sources
under src; only their contracts are given by the specification (section 4.1
and 4.2) and by the repository README (canonical request hashing ignores the
created_at and _meta fields).  The model below follows the spec's words:
mapping keys are sorted lexicographically, array order is preserved, the
allow-listed field names are stripped before serialization, numbers are
serialized in one fixed form, and the result is a single string with no
trailing whitespace.  The hash is an arbitrary pure function of the
canonical bytes. -/

/-- A structured artifact: a mapping, array or scalar tree. -/
inductive Artifact where
  | null
  | bool (b : Bool)
  | num (n : Int)
  | str (s : String)
  | arr (items : List Artifact)
  | obj (fields : List (String × Artifact))

/-- Escapes one character for the canonical string form. -/
def escapeChar (c : Char) : List Char :=
  if c = '"' then ['\\', '"']
  else if c = '\\' then ['\\', '\\']
  else if c = '\n' then ['\\', 'n']
  else [c]

/-- Quotes a string for the canonical form. -/
def quoteStr (s : String) : String :=
  "\"" ++ ((s.toList.map escapeChar).flatten).asString ++ "\""

/-- Joins serialized elements with commas. -/
def joinComma : List String → String
  | [] => ""
  | [x] => x
  | x :: xs => x ++ "," ++ joinComma xs

/-- Key order used when sorting mapping entries whose values are already
serialized: lexicographic order on the key. -/
def keyLE (p q : String × String) : Prop :=
  p.1 ≤ q.1

instance : DecidableRel keyLE :=
  fun p q => inferInstanceAs (Decidable (p.1 ≤ q.1))

instance : IsTotal (String × String) keyLE :=
  ⟨fun p q => le_total p.1 q.1⟩

instance : IsTrans (String × String) keyLE :=
  ⟨fun _ _ _ h1 h2 => le_trans h1 h2⟩

/-- Strict key order, used to show that sorting entries with distinct keys
is unambiguous. -/
def keyLT (p q : String × String) : Prop :=
  p.1 < q.1

instance : IsAntisymm (String × String) keyLT :=
  ⟨fun _ _ h1 h2 => absurd (lt_trans h1 h2) (lt_irrefl _)⟩

/-- Sorts serialized mapping entries by key. -/
def sortByKey (l : List (String × String)) : List (String × String) :=
  List.insertionSort keyLE l

mutual

/-- Modelled from the spec: the canonical byte representation of an
artifact.  Mapping keys are sorted lexicographically, entries whose key is
in the allow-list are stripped at every level before serialization, array
order is preserved, and scalars are serialized in one fixed form. -/
def canonicalize (allow : List String) : Artifact → String
  | .null => "null"
  | .bool b => if b then "true" else "false"
  | .num n => toString n
  | .str s => quoteStr s
  | .arr items => "[" ++ joinComma (canonList allow items) ++ "]"
  | .obj fields =>
      "\x7b"
      ++ joinComma ((sortByKey ((canonFields allow fields).filter
            (fun p => !(allow.contains p.1)))).map
          (fun p => quoteStr p.1 ++ ":" ++ p.2))
      ++ "\x7d"

/-- Canonical forms of the elements of an array, in order. -/
def canonList (allow : List String) : List Artifact → List String
  | [] => []
  | a :: rest => canonicalize allow a :: canonList allow rest

/-- Canonical forms of the values of a mapping, keeping the keys. -/
def canonFields (allow : List String) : List (String × Artifact) → List (String × String)
  | [] => []
  | (k, v) :: rest => (k, canonicalize allow v) :: canonFields allow rest

end

/-- Entries of a mapping whose key is not allow-listed. -/
def stripAllowed (allow : List String) (fields : List (String × Artifact)) :
    List (String × Artifact) :=
  fields.filter (fun p => !(allow.contains p.1))

mutual

/-- Two artifacts differ only in allow-listed fields or in mapping key
order: scalars must agree, arrays must agree pointwise, and mappings must
agree on their non-allow-listed entries up to a permutation and up to the
same drift in the values, with distinct keys after stripping. -/
inductive DriftEq (allow : List String) : Artifact → Artifact → Prop where
  | refl (a : Artifact) : DriftEq allow a a
  | arr {xs ys : List Artifact} :
      DriftList allow xs ys → DriftEq allow (.arr xs) (.arr ys)
  | obj {fs gs l : List (String × Artifact)} :
      List.Perm (stripAllowed allow fs) l →
      DriftFields allow l (stripAllowed allow gs) →
      ((stripAllowed allow fs).map Prod.fst).Nodup →
      DriftEq allow (.obj fs) (.obj gs)

/-- Pointwise drift between two arrays. -/
inductive DriftList (allow : List String) : List Artifact → List Artifact → Prop where
  | nil : DriftList allow [] []
  | cons {a b : Artifact} {as bs : List Artifact} :
      DriftEq allow a b → DriftList allow as bs → DriftList allow (a :: as) (b :: bs)

/-- Pointwise drift between two mapping entry lists: keys agree and values
drift. -/
inductive DriftFields (allow : List String) :
    List (String × Artifact) → List (String × Artifact) → Prop where
  | nil : DriftFields allow [] []
  | cons {k : String} {v w : Artifact} {fs gs : List (String × Artifact)} :
      DriftEq allow v w → DriftFields allow fs gs →
      DriftFields allow ((k, v) :: fs) ((k, w) :: gs)

end


theorem canonFields_eq_map (allow : List String) (fs : List (String × Artifact)) :
    canonFields allow fs = fs.map (fun p => (p.1, canonicalize allow p.2)) := by
  induction fs with
  | nil => rfl
  | cons p rest ih =>
    cases p with
    | mk k v => simp [canonFields, ih]

theorem canonFields_keys (allow : List String) (fs : List (String × Artifact)) :
    (canonFields allow fs).map Prod.fst = fs.map Prod.fst := by
  rw [canonFields_eq_map, List.map_map]
  rfl

theorem canonFields_filter (allow : List String) (fs : List (String × Artifact)) :
    (canonFields allow fs).filter (fun p => !(allow.contains p.1))
      = canonFields allow (stripAllowed allow fs) := by
  induction fs with
  | nil => rfl
  | cons p rest ih =>
    cases p with
    | mk k v =>
      by_cases hc : k ∈ allow
      · simp [canonFields, stripAllowed, List.filter_cons, hc, ih]
        simp [stripAllowed] at ih
        exact ih
      · simp [canonFields, stripAllowed, List.filter_cons, hc, ih]
        simp [stripAllowed] at ih
        exact ih

theorem sortByKey_eq_of_perm {a b : List (String × String)} (hab : a.Perm b)
    (hnd : (a.map Prod.fst).Nodup) : sortByKey a = sortByKey b := by
  have hperm : (sortByKey a).Perm (sortByKey b) :=
    ((List.perm_insertionSort keyLE a).trans hab).trans
      (List.perm_insertionSort keyLE b).symm
  have hsa : List.Sorted keyLE (sortByKey a) := List.sorted_insertionSort keyLE a
  have hsb : List.Sorted keyLE (sortByKey b) := List.sorted_insertionSort keyLE b
  have hnda : ((sortByKey a).map Prod.fst).Nodup :=
    (((List.perm_insertionSort keyLE a).map Prod.fst).nodup_iff).2 hnd
  have hndb : ((sortByKey b).map Prod.fst).Nodup :=
    (((hperm.map Prod.fst).symm).nodup_iff).2 hnda
  have hlta : List.Pairwise keyLT (sortByKey a) := by
    have hne : List.Pairwise (fun p q : String × String => p.1 ≠ q.1) (sortByKey a) :=
      (List.pairwise_map).1 hnda
    exact (hsa.and hne).imp (fun hpq => lt_of_le_of_ne hpq.1 hpq.2)
  have hltb : List.Pairwise keyLT (sortByKey b) := by
    have hne : List.Pairwise (fun p q : String × String => p.1 ≠ q.1) (sortByKey b) :=
      (List.pairwise_map).1 hndb
    exact (hsb.and hne).imp (fun hpq => lt_of_le_of_ne hpq.1 hpq.2)
  exact List.eq_of_perm_of_sorted hperm hlta hltb

theorem canonList_of_pointwise (allow : List String) :
    ∀ {xs ys : List Artifact},
      (∀ x y, x ∈ xs → DriftEq allow x y → canonicalize allow x = canonicalize allow y) →
      DriftList allow xs ys → canonList allow xs = canonList allow ys := by
  intro xs
  induction xs with
  | nil =>
    intro ys _ h
    cases h
    rfl
  | cons x rest ih =>
    intro ys hmem h
    cases h with
    | cons hx hrest =>
      rename_i y ys2
      have h1 := hmem x y (List.mem_cons_self x rest) hx
      have h2 := ih (fun u v hu huv => hmem u v (List.mem_cons_of_mem x hu) huv) hrest
      simp [canonList, h1, h2]

theorem canonFields_of_pointwise (allow : List String) :
    ∀ {fs gs : List (String × Artifact)},
      (∀ k v w, (k, v) ∈ fs → DriftEq allow v w →
        canonicalize allow v = canonicalize allow w) →
      DriftFields allow fs gs → canonFields allow fs = canonFields allow gs := by
  intro fs
  induction fs with
  | nil =>
    intro gs _ h
    cases h
    rfl
  | cons p rest ih =>
    intro gs hmem h
    cases h with
    | cons hv hrest =>
      rename_i k v w gs2
      have h1 := hmem k v w (List.mem_cons_self _ rest) hv
      have h2 := ih (fun k2 v2 w2 hu huv => hmem k2 v2 w2 (List.mem_cons_of_mem _ hu) huv)
        hrest
      simp [canonFields, h1, h2]

theorem driftEq_canon_aux (allow : List String) :
    ∀ n : Nat, ∀ a b : Artifact, sizeOf a < n → DriftEq allow a b →
      canonicalize allow a = canonicalize allow b := by
  intro n
  induction n with
  | zero =>
    intro a b hlt
    exact absurd hlt (Nat.not_lt_zero _)
  | succ n ihn =>
    intro a b hlt h
    cases h with
    | refl => rfl
    | arr hl =>
      rename_i xs ys
      have hxs : ∀ x y, x ∈ xs → DriftEq allow x y →
          canonicalize allow x = canonicalize allow y := by
        intro x y hx hxy
        apply ihn x y ?_ hxy
        have hx1 : sizeOf x < sizeOf xs := List.sizeOf_lt_of_mem hx
        have hx2 : sizeOf (Artifact.arr xs) = 1 + sizeOf xs := by simp
        omega
      have hcl := canonList_of_pointwise allow hxs hl
      simp only [canonicalize, hcl]
    | obj hperm hfields hnd =>
      rename_i fs gs l
      have hvals : ∀ k v w, (k, v) ∈ l → DriftEq allow v w →
          canonicalize allow v = canonicalize allow w := by
        intro k v w hkv hvw
        apply ihn v w ?_ hvw
        have hm1 : (k, v) ∈ stripAllowed allow fs := (hperm.mem_iff).2 hkv
        have hm2 : (k, v) ∈ fs := by
          have := List.mem_filter.1 hm1
          exact this.1
        have hx1 : sizeOf (k, v) < sizeOf fs := List.sizeOf_lt_of_mem hm2
        have hx2 : sizeOf (k, v) = 1 + sizeOf k + sizeOf v := by simp
        have hx3 : sizeOf (Artifact.obj fs) = 1 + sizeOf fs := by simp
        omega
      have h1 := canonFields_filter allow fs
      have h2 := canonFields_filter allow gs
      have h3 : canonFields allow l = canonFields allow (stripAllowed allow gs) :=
        canonFields_of_pointwise allow hvals hfields
      have h4 : (canonFields allow (stripAllowed allow fs)).Perm (canonFields allow l) := by
        rw [canonFields_eq_map allow (stripAllowed allow fs), canonFields_eq_map allow l]
        exact hperm.map _
      have h5 : ((canonFields allow (stripAllowed allow fs)).map Prod.fst).Nodup := by
        rw [canonFields_keys]
        exact hnd
      have h6 : sortByKey (canonFields allow (stripAllowed allow fs))
          = sortByKey (canonFields allow (stripAllowed allow gs)) := by
        apply sortByKey_eq_of_perm _ h5
        rw [← h3]
        exact h4
      simp only [canonicalize, h1, h2, h6]

theorem canonicalize_driftEq {allow : List String} {a b : Artifact}
    (h : DriftEq allow a b) : canonicalize allow a = canonicalize allow b :=
  driftEq_canon_aux allow (sizeOf a + 1) a b (Nat.lt_succ_self _) h

/-- C2: whenever two artifacts differ only in allow-listed fields (at any
depth) or in mapping key order, their canonical forms are equal, and hence
every pure hash function assigns them the same digest; in particular two
execution requests identical except for created_at get the same request
hash. -/
theorem C2_canonicalize_drift (allow : List String) (A B : Artifact)
    (h : DriftEq allow A B) :
    canonicalize allow A = canonicalize allow B
    ∧ ∀ hash : String → String,
        hash (canonicalize allow A) = hash (canonicalize allow B) := by
  have he := canonicalize_driftEq h
  exact ⟨he, fun hash => by rw [he]⟩

/-- The allow-list of non-deterministic fields used by the pipeline, per the
README: canonical request hashing ignores created_at and _meta. -/
def defaultAllow : List String :=
  ["created_at", "_meta"]

/-- Concrete execution request used as a witness. -/
def witnessReqA : Artifact :=
  .obj [("kind", .str "execution_request"), ("task_id", .str "T-1"),
        ("created_at", .str "2025-01-01T00:00:00Z"), ("payload", .str "snapshot")]

/-- The same request with a different created_at and a different key order. -/
def witnessReqB : Artifact :=
  .obj [("task_id", .str "T-1"), ("kind", .str "execution_request"),
        ("created_at", .str "2025-02-02T12:34:56Z"), ("payload", .str "snapshot")]

theorem witnessReq_drift : DriftEq defaultAllow witnessReqA witnessReqB := by
  show DriftEq defaultAllow (.obj _) (.obj _)
  refine DriftEq.obj
    (l := [("task_id", .str "T-1"), ("kind", .str "execution_request"),
      ("payload", .str "snapshot")]) ?_ ?_ ?_
  · show List.Perm [("kind", Artifact.str "execution_request"),
      ("task_id", Artifact.str "T-1"), ("payload", Artifact.str "snapshot")] _
    exact List.Perm.swap _ _ _
  · show DriftFields defaultAllow _ [("task_id", Artifact.str "T-1"),
      ("kind", Artifact.str "execution_request"), ("payload", Artifact.str "snapshot")]
    exact DriftFields.cons (DriftEq.refl _)
      (DriftFields.cons (DriftEq.refl _)
        (DriftFields.cons (DriftEq.refl _) DriftFields.nil))
  · decide

/-- C2 witness: the two concrete requests above, which differ only in
created_at and in key order, are drift-equivalent and canonicalize to the
same string, so every hash function gives them the same request hash. -/
theorem C2_witness :
    DriftEq defaultAllow witnessReqA witnessReqB
    ∧ canonicalize defaultAllow witnessReqA = canonicalize defaultAllow witnessReqB :=
  ⟨witnessReq_drift,
   (C2_canonicalize_drift defaultAllow witnessReqA witnessReqB witnessReq_drift).1⟩

/-! Replay pipeline.  Modelled from the spec: the Executor, the result
artifact shape (spec section 3) and the ReplayRunner algorithm (spec section
4.7) live in Python scripts that are not part of the sources under src; the
model follows the spec's words.  The hash and the agent collaborator are
explicit function parameters, the clock is the explicit parameter now, and
the on-disk history is an explicit value, so replay is by construction a
function of the history and the agent only and performs no network
access. -/

/-- The request hash: the hash of the canonical form of the request under
the default allow-list. -/
def requestHash (hash : String → String) (a : Artifact) : String :=
  hash (canonicalize defaultAllow a)

/-- Modelled from the spec: the Executor delegates to the agent collaborator
and wraps its output into an execution result bound to the request by
request_hash, stamped with the current time. -/
def executeRequest (hash : String → String) (agent : Artifact → Artifact) (now : String)
    (req : Artifact) : Artifact :=
  .obj [("kind", .str "execution_result"),
        ("agent_role", .str "engineer"),
        ("request_hash", .str (requestHash hash req)),
        ("created_at", .str now),
        ("status", .str "success"),
        ("output", agent req)]

/-- Replay selector: a task id or a request hash. -/
inductive Selector where
  | byTaskId (id : String)
  | byRequestHash (h : String)

/-- Field lookup in a mapping artifact. -/
def getField (a : Artifact) (k : String) : Option Artifact :=
  match a with
  | .obj fs => (fs.find? (fun p => p.1 == k)).map Prod.snd
  | _ => none

/-- String field lookup in a mapping artifact. -/
def getStr (a : Artifact) (k : String) : Option String :=
  match getField a k with
  | some (.str s) => some s
  | _ => none

/-- Whether a stored request matches the selector. -/
def selectorMatches (hash : String → String) (sel : Selector) (req : Artifact) : Bool :=
  match sel with
  | .byTaskId id => getStr req "task_id" == some id
  | .byRequestHash h => requestHash hash req == h

/-- Most recent matching entry of an append-ordered history list. -/
def findMostRecent (p : Artifact → Bool) (l : List Artifact) : Option Artifact :=
  l.reverse.find? p

/-- The on-disk history: the request log and the result log, in append
order. -/
structure History where
  requests : List Artifact
  results : List Artifact

/-- Replay report, per the spec: whether the hashes matched, and the two
hashes. -/
structure ReplayReport where
  matched : Bool
  originalHash : String
  replayHash : String

/-- The canonical hash of a result artifact. -/
def resultHash (hash : String → String) (r : Artifact) : String :=
  hash (canonicalize defaultAllow r)

/-- Modelled from the spec: the ReplayRunner scans the request history for
the most recent entry matching the selector, reconstructs the request
exactly as stored, re-submits it to the Executor, looks up the original
paired result by request_hash in the result history, and reports whether
the canonical hash of the new result equals the canonical hash recorded by
the original paired result. -/
def replay (hash : String → String) (agent : Artifact → Artifact) (now : String)
    (hist : History) (sel : Selector) : Option ReplayReport :=
  match findMostRecent (selectorMatches hash sel) hist.requests with
  | none => none
  | some req =>
    match findMostRecent
        (fun r => getStr r "request_hash" == some (requestHash hash req)) hist.results with
    | none => none
    | some orig =>
      let fresh := executeRequest hash agent now req
      let oh := resultHash hash orig
      let rh := resultHash hash fresh
      some ⟨oh == rh, oh, rh⟩

theorem executeRequest_canon_eq (hash : String → String) (agent : Artifact → Artifact)
    (now0 now1 : String) (req : Artifact) :
    canonicalize defaultAllow (executeRequest hash agent now0 req)
      = canonicalize defaultAllow (executeRequest hash agent now1 req) := by
  apply canonicalize_driftEq
  show DriftEq defaultAllow (.obj _) (.obj _)
  refine DriftEq.obj (l := stripAllowed defaultAllow
    [("kind", .str "execution_result"),
     ("agent_role", .str "engineer"),
     ("request_hash", .str (requestHash hash req)),
     ("created_at", .str now0),
     ("status", .str "success"),
     ("output", agent req)]) (List.Perm.refl _) ?_ ?_
  · show DriftFields defaultAllow
      [("kind", Artifact.str "execution_result"),
       ("agent_role", Artifact.str "engineer"),
       ("request_hash", Artifact.str (requestHash hash req)),
       ("status", Artifact.str "success"),
       ("output", agent req)]
      [("kind", Artifact.str "execution_result"),
       ("agent_role", Artifact.str "engineer"),
       ("request_hash", Artifact.str (requestHash hash req)),
       ("status", Artifact.str "success"),
       ("output", agent req)]
    exact DriftFields.cons (DriftEq.refl _)
      (DriftFields.cons (DriftEq.refl _)
        (DriftFields.cons (DriftEq.refl _)
          (DriftFields.cons (DriftEq.refl _)
            (DriftFields.cons (DriftEq.refl _) DriftFields.nil))))
  · show (List.map Prod.fst
      [("kind", Artifact.str "execution_result"),
       ("agent_role", Artifact.str "engineer"),
       ("request_hash", Artifact.str (requestHash hash req)),
       ("status", Artifact.str "success"),
       ("output", agent req)]).Nodup
    simp [List.Nodup]

/-- C1: for every request stored in the request history that the replay
selector finds, if its paired result in the result history was produced by
the same executor from that request with the same deterministic agent
collaborator (at whatever time the original run happened), then replaying
at any later time yields a report whose replay hash equals the recorded
original hash, with matched true; the replay function takes only the
on-disk history and the agent collaborator as inputs, so by construction it
performs no network access. -/
theorem C1_replay_determinism (hash : String → String) (agent : Artifact → Artifact)
    (now0 now1 : String) (hist : History) (sel : Selector) (req orig : Artifact)
    (hreq : findMostRecent (selectorMatches hash sel) hist.requests = some req)
    (hres : findMostRecent
        (fun r => getStr r "request_hash" == some (requestHash hash req)) hist.results
      = some orig)
    (horig : orig = executeRequest hash agent now0 req) :
    ∃ rep : ReplayReport, replay hash agent now1 hist sel = some rep
      ∧ rep.matched = true ∧ rep.replayHash = rep.originalHash := by
  have hcanon : resultHash hash orig
      = resultHash hash (executeRequest hash agent now1 req) := by
    rw [horig]
    unfold resultHash
    rw [executeRequest_canon_eq hash agent now0 now1 req]
  refine ⟨⟨resultHash hash orig == resultHash hash (executeRequest hash agent now1 req),
    resultHash hash orig, resultHash hash (executeRequest hash agent now1 req)⟩, ?_, ?_, ?_⟩
  · simp [replay, hreq, hres]
  · simp [hcanon]
  · simp [hcanon]

/-- Concrete deterministic agent used in the replay witness. -/
def witnessAgent (a : Artifact) : Artifact :=
  .arr [a]

/-- Concrete request stored in the witness history. -/
def witnessStoredReq : Artifact :=
  .obj [("kind", .str "execution_request"), ("task_id", .str "T-9"),
        ("created_at", .str "2025-03-03T00:00:00Z"), ("payload", .str "snap")]

/-- Concrete hash function used in the replay witness. -/
def witnessHash (s : String) : String :=
  "H" ++ Nat.repr s.length

/-- Witness history: one stored request and the result the executor produced
for it at the original run time. -/
def witnessHistory : History :=
  ⟨[witnessStoredReq],
   [executeRequest witnessHash witnessAgent "2025-03-03T00:00:01Z" witnessStoredReq]⟩

/-- C1 witness: replaying the stored request of the concrete history by task
id at a later time reports matching hashes. -/
theorem C1_witness :
    findMostRecent (selectorMatches witnessHash (.byTaskId "T-9"))
        witnessHistory.requests = some witnessStoredReq
    ∧ findMostRecent
        (fun r => getStr r "request_hash"
          == some (requestHash witnessHash witnessStoredReq)) witnessHistory.results
      = some (executeRequest witnessHash witnessAgent "2025-03-03T00:00:01Z"
          witnessStoredReq)
    ∧ ∃ rep : ReplayReport,
        replay witnessHash witnessAgent "2026-01-01T00:00:00Z" witnessHistory
          (.byTaskId "T-9") = some rep
        ∧ rep.matched = true ∧ rep.replayHash = rep.originalHash := by
  have h2 : findMostRecent
      (fun r => getStr r "request_hash"
        == some (requestHash witnessHash witnessStoredReq)) witnessHistory.results
      = some (executeRequest witnessHash witnessAgent "2025-03-03T00:00:01Z"
          witnessStoredReq) := by
    simp [findMostRecent, witnessHistory, executeRequest, getStr, getField]
  refine ⟨rfl, h2, ?_⟩
  exact C1_replay_determinism witnessHash witnessAgent "2025-03-03T00:00:01Z"
    "2026-01-01T00:00:00Z" witnessHistory (.byTaskId "T-9") witnessStoredReq
    (executeRequest witnessHash witnessAgent "2025-03-03T00:00:01Z" witnessStoredReq)
    rfl h2 rfl

/-! Executor state machine and fail-closed validation.  Modelled from the
spec: the SchemaValidator (spec section 4.3) and the Executor state machine
(spec section 4.5) live in Python scripts that are not part of the sources
under src.  The model follows the spec's words: submit moves Idle to
Validating; a validation failure moves directly to the Error state, skipping
Executing, and the validation errors are wrapped into an error artifact of
the same shape as a result, with status error and a populated errors field,
written through the same store write path as a successful result.  The
result-schema check on the agent output is not modelled; the claim settled
here concerns only the validation-failure path. -/

/-- States of the Executor. -/
inductive ExecState where
  | idle
  | validating
  | executing
  | succeeded
  | failed
deriving DecidableEq

/-- Outcome of schema validation: a structured pass or fail, never an
exception. -/
inductive ValidationOutcome where
  | valid
  | invalid (errors : List String)

/-- Modelled from the spec: the required fields of the execution_request
schema; the claim's example is a request missing task_id. -/
def requiredRequestFields : List String :=
  ["kind", "task_id", "payload"]

/-- Whether a mapping artifact has a field of the given name. -/
def hasField (a : Artifact) (k : String) : Bool :=
  match a with
  | .obj fs => fs.any (fun p => p.1 == k)
  | _ => false

/-- Modelled from the spec: the SchemaValidator for the execution_request
schema returns a structured pass, or a structured fail listing every missing
required field; it is a total function and never raises. -/
def validateRequest (a : Artifact) : ValidationOutcome :=
  match a with
  | .obj _ =>
    let missing := requiredRequestFields.filter (fun k => !hasField a k)
    if missing.isEmpty then .valid
    else .invalid (missing.map (fun k => "missing required field: " ++ k))
  | _ => .invalid ["request is not an object"]

/-- Modelled from the spec: the ArtifactStore keeps one last-artifact slot
and one append-only history per artifact kind. -/
structure ArtifactStore where
  lastSlot : String → Option Artifact
  history : String → List Artifact

/-- The single store write path: overwrite the kind's last slot and append
to the kind's history. -/
def writeArtifact (kind : String) (a : Artifact) (s : ArtifactStore) : ArtifactStore :=
  { lastSlot := fun k => if k = kind then some a else s.lastSlot k
    history := fun k => if k = kind then s.history k ++ [a] else s.history k }

/-- Modelled from the spec: a validation failure is wrapped into a
well-formed error artifact of the same shape as a result, with status error
and the populated errors field. -/
def errorArtifact (now reqHash : String) (errs : List String) : Artifact :=
  .obj [("kind", .str "execution_result"),
        ("agent_role", .str "engineer"),
        ("request_hash", .str reqHash),
        ("created_at", .str now),
        ("status", .str "error"),
        ("errors", .arr (errs.map Artifact.str))]

/-- Trace of one submission: the states visited in order, the store after
the run, and the artifact written. -/
structure SubmitOutcome where
  visited : List ExecState
  store : ArtifactStore
  result : Artifact

/-- Modelled from the spec: submitting a request to the Executor.  The
request is validated first; on failure the machine goes Idle, Validating,
Error, Idle, never entering Executing, and writes the error artifact through
the store write path; on success it goes through Executing and writes the
agent-produced result through the same path. -/
def submitRequest (hash : String → String) (agent : Artifact → Artifact) (now : String)
    (s : ArtifactStore) (req : Artifact) : SubmitOutcome :=
  match validateRequest req with
  | .invalid errs =>
    let art := errorArtifact now (requestHash hash req) errs
    ⟨[.idle, .validating, .failed, .idle], writeArtifact "execution_result" art s, art⟩
  | .valid =>
    let art := executeRequest hash agent now req
    ⟨[.idle, .validating, .executing, .succeeded, .idle],
      writeArtifact "execution_result" art s, art⟩

theorem validateRequest_fails (req : Artifact) (hmiss : hasField req "task_id" = false) :
    ∃ errs : List String, validateRequest req = .invalid errs ∧ errs ≠ [] := by
  cases req with
  | null => exact ⟨["request is not an object"], rfl, by simp⟩
  | bool b => exact ⟨["request is not an object"], rfl, by simp⟩
  | num n => exact ⟨["request is not an object"], rfl, by simp⟩
  | str s => exact ⟨["request is not an object"], rfl, by simp⟩
  | arr xs => exact ⟨["request is not an object"], rfl, by simp⟩
  | obj fs =>
    have hmem : "task_id" ∈ requiredRequestFields.filter
        (fun k => !hasField (Artifact.obj fs) k) := by
      simp [requiredRequestFields, hmiss]
    refine ⟨(requiredRequestFields.filter
        (fun k => !hasField (Artifact.obj fs) k)).map
        (fun k => "missing required field: " ++ k), ?_, ?_⟩
    · have hne : (requiredRequestFields.filter
          (fun k => !hasField (Artifact.obj fs) k)).isEmpty = false := by
        rcases hx : requiredRequestFields.filter (fun k => !hasField (Artifact.obj fs) k)
          with _ | ⟨a, l⟩
        · rw [hx] at hmem
          simp at hmem
        · rfl
      simp [validateRequest, hne]
    · have hnil := List.ne_nil_of_mem hmem
      simpa using hnil

/-- C7: submitting a request that lacks the required task_id field produces
a well-formed error artifact, with status error and a non-empty errors
field, written through the same store write path as a successful result
(last slot overwrite plus history append), and the state machine never
enters the Executing state; validation is a total function, so it never
raises. -/
theorem C7_fail_closed (hash : String → String) (agent : Artifact → Artifact)
    (now : String) (s : ArtifactStore) (req : Artifact)
    (hmiss : hasField req "task_id" = false) :
    ExecState.executing ∉ (submitRequest hash agent now s req).visited
    ∧ getStr (submitRequest hash agent now s req).result "status" = some "error"
    ∧ (∃ errs : List Artifact,
        getField (submitRequest hash agent now s req).result "errors"
          = some (.arr errs) ∧ errs ≠ [])
    ∧ (submitRequest hash agent now s req).store
        = writeArtifact "execution_result" (submitRequest hash agent now s req).result s
    ∧ (submitRequest hash agent now s req).store.history "execution_result"
        = s.history "execution_result" ++ [(submitRequest hash agent now s req).result] := by
  obtain ⟨errs, hval, hne⟩ := validateRequest_fails req hmiss
  have hsub : submitRequest hash agent now s req
      = ⟨[.idle, .validating, .failed, .idle],
          writeArtifact "execution_result" (errorArtifact now (requestHash hash req) errs) s,
          errorArtifact now (requestHash hash req) errs⟩ := by
    simp [submitRequest, hval]
  rw [hsub]
  refine ⟨?_, ?_, ?_, ?_, ?_⟩
  · show ExecState.executing
      ∉ [ExecState.idle, ExecState.validating, ExecState.failed, ExecState.idle]
    decide
  · simp [errorArtifact, getStr, getField]
  · exact ⟨errs.map Artifact.str, by simp [errorArtifact, getField], by simpa using hne⟩
  · rfl
  · simp [writeArtifact]

/-- Concrete request missing the task_id field, used in the validation
witness. -/
def witnessBadReq : Artifact :=
  .obj [("kind", .str "execution_request"), ("payload", .str "snap")]

/-- Empty store used in the validation witness. -/
def emptyStore : ArtifactStore :=
  ⟨fun _ => none, fun _ => []⟩

/-- C7 witness: submitting the concrete request missing task_id on the empty
store writes an error artifact through the store write path and never
enters the Executing state. -/
theorem C7_witness :
    hasField witnessBadReq "task_id" = false
    ∧ (ExecState.executing
        ∉ (submitRequest witnessHash witnessAgent "2025-04-04T00:00:00Z" emptyStore
            witnessBadReq).visited
      ∧ getStr (submitRequest witnessHash witnessAgent "2025-04-04T00:00:00Z" emptyStore
            witnessBadReq).result "status" = some "error"
      ∧ (∃ errs : List Artifact,
          getField (submitRequest witnessHash witnessAgent "2025-04-04T00:00:00Z" emptyStore
              witnessBadReq).result "errors" = some (.arr errs) ∧ errs ≠ [])
      ∧ (submitRequest witnessHash witnessAgent "2025-04-04T00:00:00Z" emptyStore
            witnessBadReq).store
          = writeArtifact "execution_result"
              (submitRequest witnessHash witnessAgent "2025-04-04T00:00:00Z" emptyStore
                witnessBadReq).result emptyStore
      ∧ (submitRequest witnessHash witnessAgent "2025-04-04T00:00:00Z" emptyStore
            witnessBadReq).store.history "execution_result"
          = emptyStore.history "execution_result"
            ++ [(submitRequest witnessHash witnessAgent "2025-04-04T00:00:00Z" emptyStore
                witnessBadReq).result]) :=
  ⟨rfl, C7_fail_closed witnessHash witnessAgent "2025-04-04T00:00:00Z" emptyStore
    witnessBadReq rfl⟩
